import Mathlib

/-!
# Verification of the UAM access-control backend

Shallow embedding of the core of the user-access-management service:
the in-memory entity store (`src/services/database.ts`), the permission
resolution middleware (`src/middleware/permission.ts`), and the
controllers for groups and access requests
(`src/controllers/group.ts`, `src/controllers/accessRequest.ts`).

Conventions of the embedding:
* TypeScript string-union fields (`role`, `status`) are plain `String`s,
  compared with `==` exactly as the source compares them with `===`.
* `Date` timestamps are `Nat` instants supplied by the caller (`now`).
* Server-assigned UUIDs are fresh `String`s supplied by the caller.
* `Partial<T>` update objects become patch structures whose fields are
  `Option`-wrapped; a present key (even one holding `undefined`,
  modelled as `some none`) overwrites on apply, mirroring JS spread.
* Controller handlers return `Except ApiError α`; every TypeScript
  early-return error response becomes an `.error` before any mutation,
  so an error result leaves the caller's store untouched, exactly as in
  the source.
-/

namespace UAM

/-- `Permission` value type: a {resource, action} pair (src/types). -/
structure Permission where
  resource : String
  action : String
deriving DecidableEq, Repr

/-- `User` record (src/types). `role` is one of "admin", "maintainer", "user". -/
structure User where
  id : String
  username : String
  email : String
  firstName : String
  lastName : String
  password : String
  role : String
  groups : List String
  createdAt : Nat
  updatedAt : Nat
deriving DecidableEq, Repr

/-- `Group` record (src/types). -/
structure Group where
  id : String
  name : String
  policies : List String
  createdAt : Nat
  updatedAt : Nat
deriving DecidableEq, Repr

/-- `Policy` record (src/types). -/
structure Policy where
  id : String
  name : String
  permissions : List Permission
  createdAt : Nat
  updatedAt : Nat
deriving DecidableEq, Repr

/-- `AccessRequest` record (src/types). `status` is one of
"pending", "approved", "denied". -/
structure AccessRequest where
  id : String
  userId : String
  groupId : String
  status : String
  reason : Option String
  requestedAt : Nat
  processedAt : Option Nat
  processedBy : Option String
deriving DecidableEq, Repr

/-- The four tables of `DatabaseSchema` (src/services/database.ts). -/
structure DatabaseSchema where
  users : List User
  groups : List Group
  policies : List Policy
  accessRequests : List AccessRequest
deriving DecidableEq, Repr

/-- Replace the first element satisfying `p` by its image under `f`;
embeds the `findIndex` + in-place assignment idiom of the update
methods in `database.ts`. -/
def updateFirst (p : α → Bool) (f : α → α) : List α → List α
  | [] => []
  | x :: xs => if p x then f x :: xs else x :: updateFirst p f xs

/-- `DatabaseService.getUserById`. -/
def getUserById (d : DatabaseSchema) (id : String) : Option User :=
  d.users.find? (fun u => u.id == id)

/-- `DatabaseService.getGroupById`. -/
def getGroupById (d : DatabaseSchema) (id : String) : Option Group :=
  d.groups.find? (fun g => g.id == id)

/-- `DatabaseService.getPolicyById`. -/
def getPolicyById (d : DatabaseSchema) (id : String) : Option Policy :=
  d.policies.find? (fun p => p.id == id)

/-- `DatabaseService.getAccessRequestById`. -/
def getAccessRequestById (d : DatabaseSchema) (id : String) : Option AccessRequest :=
  d.accessRequests.find? (fun r => r.id == id)

/-- `DatabaseService.getAccessRequestsByUserId`. -/
def getAccessRequestsByUserId (d : DatabaseSchema) (userId : String) : List AccessRequest :=
  d.accessRequests.filter (fun r => r.userId == userId)

/-- `DatabaseService.getUserByUsername` (exact, case-sensitive match). -/
def getUserByUsername (d : DatabaseSchema) (username : String) : Option User :=
  d.users.find? (fun u => u.username == username)

/-- JS `.toLowerCase()`, written over the character list so that it
evaluates in the kernel. -/
def toLowerStr (s : String) : String :=
  ⟨s.data.map Char.toLower⟩

/-- JS `.trim()`: strip whitespace from both ends, written over the
character list so that it evaluates in the kernel. -/
def trimStr (s : String) : String :=
  ⟨((s.data.dropWhile Char.isWhitespace).reverse.dropWhile Char.isWhitespace).reverse⟩

/-- `DatabaseService.getUserByEmail` (case-insensitive match). -/
def getUserByEmail (d : DatabaseSchema) (email : String) : Option User :=
  d.users.find? (fun u => toLowerStr u.email == toLowerStr email)

/-- Partial update object for `updateUser` (`Partial<Omit<User, 'id' | 'createdAt'>>`).
A `some` field is a key present in the JS object and overwrites on apply. -/
structure UserPatch where
  username : Option String := none
  email : Option String := none
  firstName : Option String := none
  lastName : Option String := none
  password : Option String := none
  role : Option String := none
  groups : Option (List String) := none
deriving DecidableEq, Repr

/-- Apply a `UserPatch`, embedding `{...user, ...userData, updatedAt: new Date()}`. -/
def applyUserPatch (p : UserPatch) (now : Nat) (u : User) : User :=
  { u with
    username := p.username.getD u.username
    email := p.email.getD u.email
    firstName := p.firstName.getD u.firstName
    lastName := p.lastName.getD u.lastName
    password := p.password.getD u.password
    role := p.role.getD u.role
    groups := p.groups.getD u.groups
    updatedAt := now }

/-- `DatabaseService.updateUser`: `findIndex`, `null` when absent, else
replace in place and return the updated record. -/
def dbUpdateUser (d : DatabaseSchema) (id : String) (p : UserPatch) (now : Nat) :
    Option User × DatabaseSchema :=
  match d.users.find? (fun u => u.id == id) with
  | none => (none, d)
  | some u =>
    (some (applyUserPatch p now u),
     { d with users := updateFirst (fun v => v.id == id) (applyUserPatch p now) d.users })

/-- Partial update object for `updateGroup`. -/
structure GroupPatch where
  name : Option String := none
  policies : Option (List String) := none
deriving DecidableEq, Repr

/-- Apply a `GroupPatch` (`{...group, ...groupData, updatedAt: new Date()}`). -/
def applyGroupPatch (p : GroupPatch) (now : Nat) (g : Group) : Group :=
  { g with
    name := p.name.getD g.name
    policies := p.policies.getD g.policies
    updatedAt := now }

/-- `DatabaseService.updateGroup`. -/
def dbUpdateGroup (d : DatabaseSchema) (id : String) (p : GroupPatch) (now : Nat) :
    Option Group × DatabaseSchema :=
  match d.groups.find? (fun g => g.id == id) with
  | none => (none, d)
  | some g =>
    (some (applyGroupPatch p now g),
     { d with groups := updateFirst (fun x => x.id == id) (applyGroupPatch p now) d.groups })

/-- Partial update object for `updateAccessRequest`. `reason`,
`processedAt` and `processedBy` keys may be present holding
`undefined` (that is, `some none`), which still overwrites on apply,
as JS spread does. -/
structure AccessRequestPatch where
  userId : Option String := none
  groupId : Option String := none
  status : Option String := none
  reason : Option (Option String) := none
  processedAt : Option (Option Nat) := none
  processedBy : Option (Option String) := none
deriving DecidableEq, Repr

/-- Apply an `AccessRequestPatch`; `processedAt` is then stamped
unconditionally (`processedAt: new Date()` in `updateAccessRequest`). -/
def applyAccessRequestPatch (p : AccessRequestPatch) (now : Nat) (r : AccessRequest) :
    AccessRequest :=
  { r with
    userId := p.userId.getD r.userId
    groupId := p.groupId.getD r.groupId
    status := p.status.getD r.status
    reason := p.reason.getD r.reason
    processedBy := p.processedBy.getD r.processedBy
    processedAt := some now }

/-- `DatabaseService.updateAccessRequest`. -/
def dbUpdateAccessRequest (d : DatabaseSchema) (id : String) (p : AccessRequestPatch)
    (now : Nat) : Option AccessRequest × DatabaseSchema :=
  match d.accessRequests.find? (fun r => r.id == id) with
  | none => (none, d)
  | some r =>
    (some (applyAccessRequestPatch p now r),
     { d with accessRequests :=
        updateFirst (fun x => x.id == id) (applyAccessRequestPatch p now) d.accessRequests })

/-- `DatabaseService.createGroup`: push with a fresh id and timestamps. -/
def dbCreateGroup (d : DatabaseSchema) (name : String) (policies : List String)
    (newId : String) (now : Nat) : Group × DatabaseSchema :=
  let g : Group := { id := newId, name := name, policies := policies,
                     createdAt := now, updatedAt := now }
  (g, { d with groups := d.groups ++ [g] })

/-- `DatabaseService.createAccessRequest`: push with a fresh id and
`requestedAt`; `processedAt`/`processedBy` start absent. -/
def dbCreateAccessRequest (d : DatabaseSchema) (userId groupId status : String)
    (reason : Option String) (newId : String) (now : Nat) :
    AccessRequest × DatabaseSchema :=
  let r : AccessRequest := { id := newId, userId := userId, groupId := groupId,
                             status := status, reason := reason, requestedAt := now,
                             processedAt := none, processedBy := none }
  (r, { d with accessRequests := d.accessRequests ++ [r] })

/-- `DatabaseService.deleteGroup`: `findIndex` then `splice` of the
first matching record; the boolean reports whether one was found. -/
def dbDeleteGroup (d : DatabaseSchema) (id : String) : Bool × DatabaseSchema :=
  (d.groups.any (fun g => g.id == id),
   { d with groups := d.groups.eraseP (fun g => g.id == id) })

/-- `DatabaseService.deletePolicy`: `findIndex` then `splice`; no
cascade happens at the store layer. -/
def dbDeletePolicy (d : DatabaseSchema) (id : String) : Bool × DatabaseSchema :=
  (d.policies.any (fun p => p.id == id),
   { d with policies := d.policies.eraseP (fun p => p.id == id) })

/-- A hexadecimal digit, upper or lower case (the `/i` flag of the
UUID regex in `validateUUID`). -/
def isHexDigit (c : Char) : Bool :=
  c.isDigit || ('a' ≤ c && c ≤ 'f') || ('A' ≤ c && c ≤ 'F')

/-- Split a character list at the hyphens (the `-` separators of the
UUID shape). -/
def splitDash : List Char → List (List Char)
  | [] => [[]]
  | x :: xs =>
    if x == '-' then [] :: splitDash xs
    else
      match splitDash xs with
      | h :: t => (x :: h) :: t
      | [] => [[x]]

/-- `validateUUID` (src/utils/validation.ts): the regex
`^[0-9a-f]{8}-[0-9a-f]{4}-[1-5][0-9a-f]{3}-[89ab][0-9a-f]{3}-[0-9a-f]{12}$/i`,
decomposed along the four hyphens. -/
def validateUUID (uuid : String) : Bool :=
  match splitDash uuid.data with
  | [a, b, c, d, e] =>
    a.length == 8 && b.length == 4 && c.length == 4 && d.length == 4 && e.length == 12 &&
    a.all isHexDigit && b.all isHexDigit && c.all isHexDigit &&
    d.all isHexDigit && e.all isHexDigit &&
    (match c with
     | v :: _ => "12345".data.contains v
     | [] => false) &&
    (match d with
     | v :: _ => "89abAB".data.contains v
     | [] => false)
  | _ => false

/-- A character allowed by the group-name regex `[a-zA-Z0-9\s\-_]`
(src/utils/validation.ts); `\s` covers the usual JS whitespace. -/
def groupNameChar (c : Char) : Bool :=
  c.isAlphanum || c == ' ' || c == '\t' || c == '\n' || c == '\r' || c == '-' || c == '_'

/-- `validateGroupName`: 3-100 characters from `groupNameChar`, tested
on the trimmed name. -/
def validateGroupName (name : String) : Bool :=
  let t := trimStr name
  3 ≤ t.length && t.length ≤ 100 && t.data.all groupNameChar

/-- `sanitizeInput` is `.trim()`. -/
def sanitizeInput (input : String) : String := trimStr input

/-- `DatabaseService.validatePolicyIds`: collect the ids that are not
well-formed UUIDs or do not resolve; valid iff none. -/
def validatePolicyIds (d : DatabaseSchema) (policyIds : List String) :
    Bool × List String :=
  let invalidIds := policyIds.filter (fun pid =>
    !(validateUUID pid) || (getPolicyById d pid).isNone)
  (invalidIds.isEmpty, invalidIds)

/-- `DatabaseService.isUsernameUnique`: exact (case-sensitive) lookup,
optionally excusing one user id. -/
def isUsernameUnique (d : DatabaseSchema) (username : String)
    (excludeUserId : Option String) : Bool :=
  match getUserByUsername d username with
  | none => true
  | some existingUser =>
    match excludeUserId with
    | some ex => existingUser.id == ex
    | none => false

/-- `DatabaseService.isEmailUnique`: case-insensitive lookup. -/
def isEmailUnique (d : DatabaseSchema) (email : String)
    (excludeUserId : Option String) : Bool :=
  match d.users.find? (fun u => toLowerStr u.email == toLowerStr email) with
  | none => true
  | some existingUser =>
    match excludeUserId with
    | some ex => existingUser.id == ex
    | none => false

/-- `DatabaseService.isGroupNameUnique` (lines 428-433):
case-insensitive name lookup, optionally excusing one group id. -/
def isGroupNameUnique (d : DatabaseSchema) (name : String)
    (excludeGroupId : Option String) : Bool :=
  match d.groups.find? (fun g => toLowerStr g.name == toLowerStr name) with
  | none => true
  | some existingGroup =>
    match excludeGroupId with
    | some ex => existingGroup.id == ex
    | none => false

/-- `DatabaseService.isPolicyNameUnique`: case-insensitive. -/
def isPolicyNameUnique (d : DatabaseSchema) (name : String)
    (excludePolicyId : Option String) : Bool :=
  match d.policies.find? (fun p => toLowerStr p.name == toLowerStr name) with
  | none => true
  | some existingPolicy =>
    match excludePolicyId with
    | some ex => existingPolicy.id == ex
    | none => false

/-- `checkUserPermission` (src/middleware/permission.ts, lines 69-104):
resolve the user, admin override, then walk user → groups → policies →
permissions with exact string matching on resource and action. -/
def checkUserPermission (d : DatabaseSchema) (userId : String)
    (requiredPermission : Permission) : Bool :=
  match getUserById d userId with
  | none => false
  | some user =>
    if user.role == "admin" then true
    else
      let userGroups := d.groups.filter (fun group => user.groups.contains group.id)
      let userPolicies := d.policies.filter (fun policy =>
        userGroups.any (fun group => group.policies.contains policy.id))
      userPolicies.any (fun policy =>
        policy.permissions.any (fun permission =>
          permission.resource == requiredPermission.resource &&
          permission.action == requiredPermission.action))

/-- Opaque failure of a database lookup (a thrown exception in the
TypeScript source). -/
inductive DBError where
  | fault : DBError
deriving DecidableEq, Repr

/-- A database whose lookups may throw, modelling the `await
DatabaseService...` calls inside the `try` block of
`checkUserPermission`. -/
structure FallibleDB where
  getUserById : String → Except DBError (Option User)
  getAllGroups : Except DBError (List Group)
  getAllPolicies : Except DBError (List Policy)

/-- The body of the `try` block of `checkUserPermission`: any lookup
failure aborts with the error, otherwise the same computation as
`checkUserPermission`. -/
def runCheckUserPermission (db : FallibleDB) (userId : String)
    (requiredPermission : Permission) : Except DBError Bool :=
  match db.getUserById userId with
  | .error e => .error e
  | .ok none => .ok false
  | .ok (some user) =>
    if user.role == "admin" then .ok true
    else
      match db.getAllGroups with
      | .error e => .error e
      | .ok allGroups =>
        match db.getAllPolicies with
        | .error e => .error e
        | .ok allPolicies =>
          let userGroups := allGroups.filter (fun group => user.groups.contains group.id)
          let userPolicies := allPolicies.filter (fun policy =>
            userGroups.any (fun group => group.policies.contains policy.id))
          .ok (userPolicies.any (fun policy =>
            policy.permissions.any (fun permission =>
              permission.resource == requiredPermission.resource &&
              permission.action == requiredPermission.action)))

/-- `checkUserPermission` with its `try/catch`: a caught error denies
(`return false`), so the function is total and never propagates an
exception to its caller. -/
def checkUserPermissionCaught (db : FallibleDB) (userId : String)
    (requiredPermission : Permission) : Bool :=
  match runCheckUserPermission db userId requiredPermission with
  | .ok b => b
  | .error _ => false

/-- Error responses of the controllers: `badRequest` is HTTP 400
(`ValidationError`/`StateError`), `notFound` 404, `conflict` 409. An
`.error` result is produced by an early `return` in the source, before
any store mutation. -/
inductive ApiError where
  | badRequest : String → ApiError
  | notFound : String → ApiError
  | conflict : String → ApiError
deriving DecidableEq, Repr

/-- `GroupController.createGroup` (src/controllers/group.ts). The
request body's `name` is a `String`; the JS falsy check `!name` is the
emptiness check. `newId`/`now` stand for the fresh UUID and `Date`. -/
def createGroupCtrl (d : DatabaseSchema) (name : String) (policies : List String)
    (newId : String) (now : Nat) : Except ApiError (DatabaseSchema × Group) :=
  if name == "" then .error (.badRequest "Group name is required")
  else
    let sanitizedName := sanitizeInput name
    if !(validateGroupName sanitizedName) then
      .error (.badRequest "Group name must be 3-100 characters long and contain only letters, numbers, spaces, hyphens, and underscores")
    else if !(isGroupNameUnique d sanitizedName none) then
      .error (.conflict "Group name already exists")
    else if policies.length > 0 && !(validatePolicyIds d policies).1 then
      .error (.badRequest "Invalid policy IDs")
    else
      let created := dbCreateGroup d sanitizedName policies newId now
      .ok (created.2, created.1)

/-- `GroupController.updateGroup` (src/controllers/group.ts, lines
292-358). The `name !== undefined` / `policies !== undefined` guards
become `Option` matches; each early-return error becomes `.error`.
Note the uniqueness check runs only when the sanitized name differs
(case-sensitively) from the current name, and never passes the
group's own id as the exclusion. -/
def updateGroupCtrl (d : DatabaseSchema) (id : String) (name : Option String)
    (policies : Option (List String)) (now : Nat) :
    Except ApiError (DatabaseSchema × Option Group) :=
  match getGroupById d id with
  | none => .error (.notFound "Group not found")
  | some existingGroup =>
    if (match name with
        | some n => !(validateGroupName (sanitizeInput n))
        | none => false) then
      .error (.badRequest "Group name must be 3-100 characters long and contain only letters, numbers, spaces, hyphens, and underscores")
    else if (match name with
        | some n =>
          sanitizeInput n != existingGroup.name &&
          !(isGroupNameUnique d (sanitizeInput n) none)
        | none => false) then
      .error (.conflict "Group name already exists")
    else if (match policies with
        | some ps => ps.length > 0 && !(validatePolicyIds d ps).1
        | none => false) then
      .error (.badRequest "Invalid policy IDs")
    else
      let patch : GroupPatch := { name := name.map sanitizeInput, policies := policies }
      let updated := dbUpdateGroup d id patch now
      .ok (updated.2, updated.1)

/-- `GroupController.deleteGroup` (src/controllers/group.ts, lines
381-414): delete the group (404 when absent), then loop over all
users, and for each whose `groups` contains the id call
`DatabaseService.updateUser` with the filtered list. -/
def deleteGroupCtrl (d : DatabaseSchema) (id : String) (now : Nat) :
    Option DatabaseSchema :=
  let deletion := dbDeleteGroup d id
  if deletion.1 then
    some (deletion.2.users.foldl (fun acc user =>
      if user.groups.contains id then
        (dbUpdateUser acc user.id
          { groups := some (user.groups.filter (fun groupId => groupId != id)) } now).2
      else acc) deletion.2)
  else none

/-- `PolicyController.deletePolicy` (src/src/routes/auth.ts, lines
476-509; that file holds several concatenated source documents, the
third being `controllers/policy.ts`): delete the policy (404 when
absent), then loop over all groups, and for each whose `policies`
contains the id call `DatabaseService.updateGroup` with the filtered
list. -/
def deletePolicyCtrl (d : DatabaseSchema) (id : String) (now : Nat) :
    Option DatabaseSchema :=
  let deletion := dbDeletePolicy d id
  if deletion.1 then
    some (deletion.2.groups.foldl (fun acc group =>
      if group.policies.contains id then
        (dbUpdateGroup acc group.id
          { policies := some (group.policies.filter (fun policyId => policyId != id)) } now).2
      else acc) deletion.2)
  else none

/-- `AccessRequestController.createAccessRequest`
(src/controllers/accessRequest.ts, lines 156-220). `callerId` is the
authenticated `req.user.userId`. The body's `groupId` falsy check is
the emptiness check. -/
def createAccessRequestCtrl (d : DatabaseSchema) (callerId : String) (groupId : String)
    (reason : Option String) (newId : String) (now : Nat) :
    Except ApiError (DatabaseSchema × AccessRequest) :=
  if groupId == "" then .error (.badRequest "Group ID is required")
  else
    match getGroupById d groupId with
    | none => .error (.notFound "Group not found")
    | some _ =>
      if (match getUserById d callerId with
          | some currentUser => currentUser.groups.contains groupId
          | none => false) then
        .error (.badRequest "You are already a member of this group")
      else
        let existingRequests := getAccessRequestsByUserId d callerId
        match existingRequests.find? (fun r =>
            r.groupId == groupId && r.status == "pending") with
        | some _ => .error (.badRequest "You already have a pending request for this group")
        | none =>
          let created := dbCreateAccessRequest d callerId groupId "pending" reason newId now
          .ok (created.2, created.1)

/-- `AccessRequestController.processAccessRequest`
(src/controllers/accessRequest.ts, lines 291-348): validate the status
literal, 404 on a missing request, reject a non-pending request, then
update it (stamping `processedAt`/`processedBy`), and on approval
append the request's `groupId` to the requesting user's `groups`. -/
def processAccessRequestCtrl (d : DatabaseSchema) (id : String) (status : String)
    (reason : Option String) (callerId : String) (now : Nat) :
    Except ApiError (DatabaseSchema × Option AccessRequest) :=
  if !(status == "approved" || status == "denied") then
    .error (.badRequest "Status must be approved or denied")
  else
    match getAccessRequestById d id with
    | none => .error (.notFound "Access request not found")
    | some accessRequest =>
      if accessRequest.status != "pending" then
        .error (.badRequest "Access request has already been processed")
      else
        let updated := dbUpdateAccessRequest d id
          { status := some status, reason := some reason,
            processedBy := some (some callerId) } now
        let afterGrant :=
          if status == "approved" then
            match getUserById updated.2 accessRequest.userId with
            | some requestUser =>
              (dbUpdateUser updated.2 requestUser.id
                { groups := some (requestUser.groups ++ [accessRequest.groupId]) } now).2
            | none => updated.2
          else updated.2
        .ok (afterGrant, updated.1)

/-- `migrateUsers` (src/services/database.ts): fill in a missing
(empty) email, firstName or lastName. -/
def migrateUser (u : User) : User :=
  let u1 := if u.email == "" then
      { u with email := if u.username.data.contains '@' then u.username
                        else u.username ++ "@example.com" }
    else u
  let u2 := if u1.firstName == "" then
      { u1 with firstName := if u1.username == "admin" then "System" else "First" }
    else u1
  if u2.lastName == "" then
    { u2 with lastName := if u2.username == "admin" then "Administrator" else "Last" }
  else u2

/-- `migrateUsers` over the users table. -/
def migrateUsers (d : DatabaseSchema) : DatabaseSchema :=
  { d with users := d.users.map migrateUser }

/-- `createDefaultAdmin`: the seeded admin user (`role: 'admin'`,
empty `groups`); `hash` stands for the bcrypt hash. -/
def createDefaultAdmin (d : DatabaseSchema) (adminId : String) (now : Nat)
    (hash : String) : DatabaseSchema :=
  { d with users := d.users ++
    [{ id := adminId, username := "admin", email := "admin@example.com",
       firstName := "System", lastName := "Administrator", password := hash,
       role := "admin", groups := [], createdAt := now, updatedAt := now }] }

/-- The 16 permissions of the seeded "Admin Policy". -/
def adminPolicyPermissions : List Permission :=
  [⟨"users", "create"⟩, ⟨"users", "read"⟩, ⟨"users", "update"⟩, ⟨"users", "delete"⟩,
   ⟨"groups", "create"⟩, ⟨"groups", "read"⟩, ⟨"groups", "update"⟩, ⟨"groups", "delete"⟩,
   ⟨"policies", "create"⟩, ⟨"policies", "read"⟩, ⟨"policies", "update"⟩, ⟨"policies", "delete"⟩,
   ⟨"access-requests", "create"⟩, ⟨"access-requests", "read"⟩,
   ⟨"access-requests", "update"⟩, ⟨"access-requests", "delete"⟩]

/-- The 4 permissions of the seeded "User Policy". -/
def userPolicyPermissions : List Permission :=
  [⟨"users", "read"⟩, ⟨"groups", "read"⟩,
   ⟨"access-requests", "create"⟩, ⟨"access-requests", "read"⟩]

/-- `createDefaultPolicies`: push "Admin Policy" and "User Policy". -/
def createDefaultPolicies (d : DatabaseSchema) (adminPolicyId userPolicyId : String)
    (now : Nat) : DatabaseSchema :=
  { d with policies := d.policies ++
    [{ id := adminPolicyId, name := "Admin Policy",
       permissions := adminPolicyPermissions, createdAt := now, updatedAt := now },
     { id := userPolicyId, name := "User Policy",
       permissions := userPolicyPermissions, createdAt := now, updatedAt := now }] }

/-- `createDefaultGroups`: push "Administrators" (linked to "Admin
Policy" when found) and "Users" (linked to "User Policy" when found),
then push the "Administrators" id onto the `groups` of the user named
"admin" when both exist. -/
def createDefaultGroups (d : DatabaseSchema) (adminGroupId userGroupId : String)
    (now : Nat) : DatabaseSchema :=
  let adminPolicy := d.policies.find? (fun p => p.name == "Admin Policy")
  let userPolicy := d.policies.find? (fun p => p.name == "User Policy")
  let newGroups : List Group :=
    [{ id := adminGroupId, name := "Administrators",
       policies := match adminPolicy with | some p => [p.id] | none => [],
       createdAt := now, updatedAt := now },
     { id := userGroupId, name := "Users",
       policies := match userPolicy with | some p => [p.id] | none => [],
       createdAt := now, updatedAt := now }]
  let d1 := { d with groups := d.groups ++ newGroups }
  match d1.users.find? (fun u => u.username == "admin") with
  | some _ =>
    { d1 with users := (updateFirst (fun u => u.username == "admin")
        (fun u => { u with groups := u.groups ++ [adminGroupId] }) d1.users) }
  | none => d1

/-- `initializeDatabase` (src/services/database.ts, lines 57-77):
migrate users, then seed the default admin when the users table is
empty, the default policies when the policies table is empty, and the
default groups when the groups table is empty — each gate tests only
its own table. The five id arguments and `hash` stand for the fresh
UUIDs and the bcrypt hash generated at runtime. -/
def initDatabase (d : DatabaseSchema) (adminId adminPolicyId userPolicyId
    adminGroupId userGroupId : String) (now : Nat) (hash : String) : DatabaseSchema :=
  let d0 := migrateUsers d
  let d1 := if d0.users.length == 0 then createDefaultAdmin d0 adminId now hash else d0
  let d2 := if d1.policies.length == 0 then
      createDefaultPolicies d1 adminPolicyId userPolicyId now
    else d1
  if d2.groups.length == 0 then createDefaultGroups d2 adminGroupId userGroupId now
  else d2

/-! ### Concrete stores used to exercise the theorems -/

/-- A seeded-style admin user. -/
def adminUserEx : User :=
  { id := "u1", username := "root", email := "root@example.com", firstName := "R",
    lastName := "T", password := "h", role := "admin", groups := [],
    createdAt := 0, updatedAt := 0 }

/-- A non-admin member of group "g1". -/
def memberUserEx : User :=
  { id := "u2", username := "bob", email := "bob@example.com", firstName := "B",
    lastName := "O", password := "h", role := "user", groups := ["g1"],
    createdAt := 0, updatedAt := 0 }

/-- A group holding policy "p1". -/
def groupEx : Group :=
  { id := "g1", name := "Admins", policies := ["p1"], createdAt := 0, updatedAt := 0 }

/-- A second group with no policies. -/
def groupEx2 : Group :=
  { id := "g2", name := "Readers", policies := [], createdAt := 0, updatedAt := 0 }

/-- A policy granting users:read. -/
def policyEx : Policy :=
  { id := "p1", name := "Read Policy", permissions := [⟨"users", "read"⟩],
    createdAt := 0, updatedAt := 0 }

/-- Store with an admin, a member, one group and one policy. -/
def storeEx : DatabaseSchema :=
  { users := [adminUserEx, memberUserEx], groups := [groupEx, groupEx2],
    policies := [policyEx], accessRequests := [] }

/-- A non-admin user who is already in "g1". -/
def dupUserEx : User :=
  { id := "u1", username := "eve", email := "eve@example.com", firstName := "E",
    lastName := "V", password := "h", role := "user", groups := ["g1"],
    createdAt := 0, updatedAt := 0 }

/-- A pending request of "u1" for "g1". -/
def pendingReqEx : AccessRequest :=
  { id := "r1", userId := "u1", groupId := "g1", status := "pending", reason := none,
    requestedAt := 0, processedAt := none, processedBy := none }

/-- Store where the requester is already a member of the requested
group while the request is still pending (the user was added to the
group by an admin after filing the request). -/
def storeDupEx : DatabaseSchema :=
  { users := [dupUserEx], groups := [groupEx], policies := [],
    accessRequests := [pendingReqEx] }

/-- A non-admin user in no groups. -/
def freshUserEx : User :=
  { id := "u1", username := "eve", email := "eve@example.com", firstName := "E",
    lastName := "V", password := "h", role := "user", groups := [],
    createdAt := 0, updatedAt := 0 }

/-- Store with a pending request by a user who is not yet a member. -/
def storeReqEx : DatabaseSchema :=
  { users := [freshUserEx], groups := [groupEx], policies := [],
    accessRequests := [pendingReqEx] }

/-- An already-approved request of "u1" for "g1". -/
def approvedReqEx : AccessRequest :=
  { id := "r1", userId := "u1", groupId := "g1", status := "approved", reason := none,
    requestedAt := 0, processedAt := some 3, processedBy := some "adm" }

/-- Store whose only request for ("u1", "g1") is already approved. -/
def storeApprovedEx : DatabaseSchema :=
  { users := [freshUserEx], groups := [groupEx], policies := [],
    accessRequests := [approvedReqEx] }

/-- Users for the deletion cascade: both reference "g1". -/
def cascUserA : User :=
  { id := "u1", username := "ann", email := "ann@example.com", firstName := "A",
    lastName := "N", password := "h", role := "user", groups := ["g1", "g2"],
    createdAt := 0, updatedAt := 0 }

/-- Second user referencing "g1" only. -/
def cascUserB : User :=
  { id := "u2", username := "ben", email := "ben@example.com", firstName := "B",
    lastName := "E", password := "h", role := "user", groups := ["g1"],
    createdAt := 0, updatedAt := 0 }

/-- Store for the group-deletion cascade. -/
def storeCascEx : DatabaseSchema :=
  { users := [cascUserA, cascUserB], groups := [groupEx, groupEx2],
    policies := [policyEx], accessRequests := [pendingReqEx] }

/-- Groups for the policy-deletion cascade: both reference "p1". -/
def polGroupA : Group :=
  { id := "g1", name := "Admins", policies := ["p1", "p2"], createdAt := 0, updatedAt := 0 }

/-- Second group referencing "p1" only. -/
def polGroupB : Group :=
  { id := "g2", name := "Readers", policies := ["p1"], createdAt := 0, updatedAt := 0 }

/-- A second policy. -/
def policyEx2 : Policy :=
  { id := "p2", name := "Write Policy", permissions := [⟨"users", "update"⟩],
    createdAt := 0, updatedAt := 0 }

/-- Store for the policy-deletion cascade. -/
def storePolCascEx : DatabaseSchema :=
  { users := [memberUserEx], groups := [polGroupA, polGroupB],
    policies := [policyEx, policyEx2], accessRequests := [] }

/-- Store holding only the group "Admins" under id "g1". -/
def storeNameEx : DatabaseSchema :=
  { users := [], groups := [groupEx], policies := [], accessRequests := [] }

/-- A user with all migration-relevant fields already present. -/
def seededUserEx : User :=
  { id := "u9", username := "carol", email := "carol@example.com", firstName := "C",
    lastName := "L", password := "h", role := "user", groups := [],
    createdAt := 0, updatedAt := 0 }

/-- Store whose users table is non-empty but whose policies and
groups tables are empty. -/
def storeSeedEx : DatabaseSchema :=
  { users := [seededUserEx], groups := [], policies := [], accessRequests := [] }

/-- A completely empty store (first startup). -/
def storeEmptyEx : DatabaseSchema :=
  { users := [], groups := [], policies := [], accessRequests := [] }

/-- A database whose every lookup throws. -/
def faultyDB : FallibleDB :=
  { getUserById := fun _ => .error .fault,
    getAllGroups := .error .fault,
    getAllPolicies := .error .fault }

/-- The store expected after deleting group "g1" from `storeCascEx`
at instant 7. -/
def storeCascResult : DatabaseSchema :=
  { users := [{ cascUserA with groups := ["g2"], updatedAt := 7 },
              { cascUserB with groups := [], updatedAt := 7 }],
    groups := [groupEx2], policies := [policyEx], accessRequests := [pendingReqEx] }

/-- The store expected after deleting policy "p1" from
`storePolCascEx` at instant 7. -/
def storePolCascResult : DatabaseSchema :=
  { users := [memberUserEx],
    groups := [{ polGroupA with policies := ["p2"], updatedAt := 7 },
               { polGroupB with policies := [], updatedAt := 7 }],
    policies := [policyEx2], accessRequests := [] }

/-! ### Theorems -/

/-- When no element satisfies `p`, `updateFirst` is the identity. -/
theorem updateFirst_of_find?_eq_none (p : α → Bool) (f : α → α) :
    ∀ l : List α, l.find? p = none → updateFirst p f l = l := by
  intro l
  induction l with
  | nil => intro h; rfl
  | cons x xs ih =>
    intro h
    cases hx : p x with
    | true => rw [List.find?_cons_of_pos _ hx] at h; cases h
    | false =>
      rw [List.find?_cons_of_neg _ (by simp [hx])] at h
      simp [updateFirst, hx, ih h]

/-- `find?` after `updateFirst` with the same predicate returns the
image of the old first match, provided it still satisfies the
predicate. -/
theorem find?_updateFirst (p : α → Bool) (f : α → α) :
    ∀ (l : List α) (a : α), l.find? p = some a → p (f a) = true →
      (updateFirst p f l).find? p = some (f a) := by
  intro l
  induction l with
  | nil => intro a h _; cases h
  | cons x xs ih =>
    intro a h hfa
    cases hx : p x with
    | true =>
      rw [List.find?_cons_of_pos _ hx] at h
      injection h with h'
      subst h'
      simp only [updateFirst, hx, if_true]
      exact List.find?_cons_of_pos _ hfa
    | false =>
      rw [List.find?_cons_of_neg _ (by simp [hx])] at h
      simp only [updateFirst, hx, if_false, Bool.false_eq_true]
      rw [List.find?_cons_of_neg _ (by simp [hx])]
      exact ih a h hfa

/-- C1: for every user that resolves and has role admin,
`checkUserPermission` returns true for every required
{resource, action} pair — the admin branch bypasses group and policy
lookup entirely, whatever the user's groups and the policy tables hold. -/
theorem admin_has_all_permissions (d : DatabaseSchema) (userId : String)
    (p : Permission) (u : User)
    (hu : getUserById d userId = some u) (hrole : u.role = "admin") :
    checkUserPermission d userId p = true := by
  unfold checkUserPermission
  rw [hu]
  simp [hrole]

/-- Witness for C1: the concrete admin of `storeEx` is allowed
`policies:delete` although it belongs to no group. -/
theorem admin_has_all_permissions_witness :
    getUserById storeEx "u1" = some adminUserEx ∧ adminUserEx.groups = [] ∧
    checkUserPermission storeEx "u1" ⟨"policies", "delete"⟩ = true :=
  ⟨by decide, rfl,
   admin_has_all_permissions storeEx "u1" ⟨"policies", "delete"⟩ adminUserEx (by decide) rfl⟩

/-- C2: for a resolving non-admin user, `checkUserPermission` is true
iff some stored group whose id is in the user's `groups` references
some stored policy holding a permission whose resource and action are
exactly string-equal to the required ones; in particular a user in no
groups, or only in groups with no policies, is denied. -/
theorem nonadmin_permission_iff (d : DatabaseSchema) (userId : String)
    (p : Permission) (u : User)
    (hu : getUserById d userId = some u) (hrole : u.role ≠ "admin") :
    checkUserPermission d userId p = true ↔
      ∃ g ∈ d.groups, g.id ∈ u.groups ∧
        ∃ pol ∈ d.policies, pol.id ∈ g.policies ∧
          ∃ perm ∈ pol.permissions,
            perm.resource = p.resource ∧ perm.action = p.action := by
  unfold checkUserPermission
  rw [hu]
  simp only [beq_iff_eq, hrole, if_false, List.any_eq_true, List.mem_filter,
    List.contains_eq_any_beq, Bool.and_eq_true]
  constructor
  · rintro ⟨pol, ⟨hpolmem, g, ⟨hgmem, hgid⟩, hpid⟩, perm, hpermmem, hres, hact⟩
    exact ⟨g, hgmem, by simpa using hgid, pol, hpolmem,
      by simpa using hpid, perm, hpermmem, by simpa using hres, by simpa using hact⟩
  · rintro ⟨g, hgmem, hgid, pol, hpolmem, hpid, perm, hpermmem, hres, hact⟩
    exact ⟨pol, ⟨hpolmem, g, ⟨hgmem, by simpa using hgid⟩, by simpa using hpid⟩,
      perm, hpermmem, by simpa using hres, by simpa using hact⟩

/-- Witness for C2: the member of `storeEx` is granted `users:read`
through group "g1" and policy "p1", and denied `users:delete`. -/
theorem nonadmin_permission_iff_witness :
    checkUserPermission storeEx "u2" ⟨"users", "read"⟩ = true ∧
    checkUserPermission storeEx "u2" ⟨"users", "delete"⟩ = false := by
  constructor
  · exact (nonadmin_permission_iff storeEx "u2" ⟨"users", "read"⟩ memberUserEx
      (by decide) (by decide)).mpr (by decide)
  · have h := (nonadmin_permission_iff storeEx "u2" ⟨"users", "delete"⟩ memberUserEx
      (by decide) (by decide))
    by_contra hb
    exact absurd (h.mp (by simpa using hb)) (by decide)

/-- C10: the permission check fails closed. With every store lookup
allowed to throw, the caught version is total (returns a `Bool` for
every input), denies when the user lookup throws or does not resolve,
and an allow can only arise from a fully successful computation: a
resolved user that is admin or genuinely reaches the permission
through a group and a policy. -/
theorem permission_check_fails_closed (db : FallibleDB) (userId : String)
    (p : Permission) :
    (∀ e : DBError, db.getUserById userId = .error e →
      checkUserPermissionCaught db userId p = false) ∧
    (db.getUserById userId = .ok none →
      checkUserPermissionCaught db userId p = false) ∧
    (checkUserPermissionCaught db userId p = true →
      ∃ u, db.getUserById userId = .ok (some u) ∧
        (u.role = "admin" ∨
          ∃ gs ps, db.getAllGroups = .ok gs ∧ db.getAllPolicies = .ok ps ∧
            ∃ g ∈ gs, g.id ∈ u.groups ∧
              ∃ pol ∈ ps, pol.id ∈ g.policies ∧
                ∃ perm ∈ pol.permissions,
                  perm.resource = p.resource ∧ perm.action = p.action)) := by
  refine ⟨?_, ?_, ?_⟩
  · intro e he
    simp [checkUserPermissionCaught, runCheckUserPermission, he]
  · intro he
    simp [checkUserPermissionCaught, runCheckUserPermission, he]
  · intro htrue
    unfold checkUserPermissionCaught runCheckUserPermission at htrue
    cases hu : db.getUserById userId with
    | error e => rw [hu] at htrue; simp at htrue
    | ok uo =>
      cases uo with
      | none => rw [hu] at htrue; simp at htrue
      | some u =>
        rw [hu] at htrue
        dsimp only at htrue
        refine ⟨u, rfl, ?_⟩
        by_cases hrole : u.role = "admin"
        · exact Or.inl hrole
        · right
          rw [if_neg (by simpa using hrole)] at htrue
          cases hg : db.getAllGroups with
          | error e => rw [hg] at htrue; simp at htrue
          | ok gs =>
            rw [hg] at htrue
            dsimp only at htrue
            cases hp : db.getAllPolicies with
            | error e => rw [hp] at htrue; simp at htrue
            | ok ps =>
              rw [hp] at htrue
              dsimp only at htrue
              simp only [List.any_eq_true, List.mem_filter, Bool.and_eq_true,
                List.contains_eq_any_beq] at htrue
              obtain ⟨pol, ⟨hpolmem, g, ⟨hgmem, hgid⟩, hpid⟩, perm, hpermmem, hres, hact⟩ :=
                htrue
              exact ⟨gs, ps, rfl, rfl, g, hgmem, by simpa using hgid, pol, hpolmem,
                by simpa using hpid, perm, hpermmem, by simpa using hres,
                by simpa using hact⟩

/-- Witness for C10: on a database whose every lookup throws, the
caught check denies rather than propagating the error. -/
theorem permission_check_fails_closed_witness :
    checkUserPermissionCaught faultyDB "u1" ⟨"users", "read"⟩ = false :=
  (permission_check_fails_closed faultyDB "u1" ⟨"users", "read"⟩).1 .fault rfl

/-- C7: creating an access request (target group existing, requester
not a member) is rejected with the store unchanged when a pending
request for the same (user, group) pair exists, and succeeds — a fresh
pending request is appended — when no prior request for the pair is
still pending (earlier approved or denied ones do not block). -/
theorem pending_duplicate_suppression (d : DatabaseSchema) (callerId groupId : String)
    (reason : Option String) (newId : String) (now : Nat) (g : Group)
    (hgid : groupId ≠ "")
    (hg : getGroupById d groupId = some g)
    (hmem : ∀ u, getUserById d callerId = some u → u.groups.contains groupId = false) :
    ((∃ r ∈ d.accessRequests, r.userId = callerId ∧ r.groupId = groupId ∧
        r.status = "pending") →
      createAccessRequestCtrl d callerId groupId reason newId now =
        .error (.badRequest "You already have a pending request for this group")) ∧
    ((∀ r ∈ d.accessRequests, r.userId = callerId → r.groupId = groupId →
        r.status ≠ "pending") →
      ∃ req d', createAccessRequestCtrl d callerId groupId reason newId now =
          .ok (d', req) ∧
        d'.accessRequests = d.accessRequests ++ [req] ∧ d'.users = d.users ∧
        d'.groups = d.groups ∧ d'.policies = d.policies ∧
        req.status = "pending" ∧ req.userId = callerId ∧ req.groupId = groupId) := by
  have hne : (groupId == "") = false := by simpa using hgid
  have hmem' : (match getUserById d callerId with
      | some currentUser => currentUser.groups.contains groupId
      | none => false) = false := by
    cases hu : getUserById d callerId with
    | none => rfl
    | some u => exact hmem u hu
  constructor
  · rintro ⟨r, hrmem, hruser, hrgroup, hrpending⟩
    unfold createAccessRequestCtrl
    rw [hne, hg]
    dsimp only
    rw [hmem']
    cases hfind : (getAccessRequestsByUserId d callerId).find?
        (fun x => x.groupId == groupId && x.status == "pending") with
    | none =>
      exfalso
      have := List.find?_eq_none.mp hfind r
        (by simp [getAccessRequestsByUserId, List.mem_filter, hrmem, hruser])
      simp [hrgroup, hrpending] at this
    | some x => simp
  · intro hnone
    have hfind : (getAccessRequestsByUserId d callerId).find?
        (fun x => x.groupId == groupId && x.status == "pending") = none := by
      apply List.find?_eq_none.mpr
      intro x hx
      simp only [getAccessRequestsByUserId, List.mem_filter, beq_iff_eq] at hx
      simp only [Bool.and_eq_true, beq_iff_eq, not_and]
      intro hxg
      exact hnone x hx.1 hx.2 hxg
    refine ⟨(dbCreateAccessRequest d callerId groupId "pending" reason newId now).1,
      (dbCreateAccessRequest d callerId groupId "pending" reason newId now).2, ?_,
      rfl, rfl, rfl, rfl, rfl, rfl, rfl⟩
    unfold createAccessRequestCtrl
    rw [hne, hg]
    dsimp only
    rw [hmem']
    rw [hfind]
    simp

/-- Witness for C7: in `storeApprovedEx` every request for
("u1", "g1") is already approved, so a new request succeeds; in
`storeReqEx` a pending one exists, so creation is rejected. -/
theorem pending_duplicate_suppression_witness :
    (createAccessRequestCtrl storeReqEx "u1" "g1" none "r9" 9 =
      .error (.badRequest "You already have a pending request for this group")) ∧
    (∃ req d', createAccessRequestCtrl storeApprovedEx "u1" "g1" none "r9" 9 =
        .ok (d', req) ∧
      d'.accessRequests = storeApprovedEx.accessRequests ++ [req] ∧
      d'.users = storeApprovedEx.users ∧ d'.groups = storeApprovedEx.groups ∧
      d'.policies = storeApprovedEx.policies ∧
      req.status = "pending" ∧ req.userId = "u1" ∧ req.groupId = "g1") := by
  constructor
  · exact (pending_duplicate_suppression storeReqEx "u1" "g1" none "r9" 9 groupEx
      (by decide) (by decide) (by decide)).1 (by decide)
  · exact (pending_duplicate_suppression storeApprovedEx "u1" "g1"
      none "r9" 9 groupEx (by decide) (by decide) (by decide)).2 (by decide)

/-- C8: processing a request whose status is not pending (with a
well-formed approve/deny decision) is rejected as an error before any
mutation — in particular a second approval of an already-approved
request errors. -/
theorem process_nonpending_rejected (d : DatabaseSchema) (id status : String)
    (reason : Option String) (callerId : String) (now : Nat) (r : AccessRequest)
    (hstatus : status = "approved" ∨ status = "denied")
    (hr : getAccessRequestById d id = some r)
    (hnp : r.status ≠ "pending") :
    processAccessRequestCtrl d id status reason callerId now =
      .error (.badRequest "Access request has already been processed") := by
  have hok : (status == "approved" || status == "denied") = true := by
    rcases hstatus with h | h <;> simp [h]
  have hbne : (r.status != "pending") = true := by simpa using hnp
  unfold processAccessRequestCtrl
  rw [hok]
  dsimp only
  rw [hr]
  dsimp only
  rw [hbne]
  rfl

/-- Witness for C8: re-approving the already-approved request of
`storeApprovedEx` returns the state error. -/
theorem process_nonpending_rejected_witness :
    getAccessRequestById storeApprovedEx "r1" = some approvedReqEx ∧
    processAccessRequestCtrl storeApprovedEx "r1" "approved" none "adm" 9 =
      .error (.badRequest "Access request has already been processed") :=
  ⟨by decide, process_nonpending_rejected storeApprovedEx "r1" "approved" none "adm" 9
    approvedReqEx (Or.inl rfl) (by decide) (by decide)⟩

/-- Counterexample to C3 as stated: in `storeDupEx` the requester is
already a member of "g1" (groups = ["g1"]) while the request is still
pending; approving appends the group id unconditionally
(`[...requestUser.groups, accessRequest.groupId]`), so the user ends
with groups ["g1", "g1"] — a duplicate occurrence is introduced, the
add is not idempotent. -/
theorem approve_duplicates_membership_cex :
    (processAccessRequestCtrl storeDupEx "r1" "approved" none "adm" 9).map
        (fun x => (getUserById x.1 "u1").map User.groups) =
      .ok (some ["g1", "g1"]) ∧
    (["g1", "g1"].count "g1") = 2 := by
  constructor
  · rfl
  · rfl

/-- `updateAccessRequest` on a request that resolves: the record is
patched in place and returned. -/
theorem dbUpdateAccessRequest_found (d : DatabaseSchema) (rid : String)
    (p : AccessRequestPatch) (now : Nat) (r : AccessRequest)
    (h : getAccessRequestById d rid = some r) :
    dbUpdateAccessRequest d rid p now =
      (some (applyAccessRequestPatch p now r),
       { d with accessRequests := (updateFirst (fun x => x.id == rid)
          (applyAccessRequestPatch p now) d.accessRequests) }) := by
  unfold dbUpdateAccessRequest
  unfold getAccessRequestById at h
  rw [h]

/-- `updateUser` on a user that resolves: the record is patched in
place and returned. -/
theorem dbUpdateUser_found (d : DatabaseSchema) (uid : String)
    (p : UserPatch) (now : Nat) (u : User)
    (h : getUserById d uid = some u) :
    dbUpdateUser d uid p now =
      (some (applyUserPatch p now u),
       { d with users := updateFirst (fun v => v.id == uid) (applyUserPatch p now) d.users }) := by
  unfold dbUpdateUser
  unfold getUserById at h
  rw [h]

/-- C3 as amended: approving a pending request sets its status to
approved, stamps `processedAt` and `processedBy`, and appends the
request's `groupId` to the requesting user's `groups`, increasing its
occurrence count by exactly one — so the id is added exactly once only
when `groups` did not already contain it; when it did, a duplicate
occurrence appears. -/
theorem approve_pending_request (d : DatabaseSchema) (rid : String)
    (reason : Option String) (callerId : String) (now : Nat)
    (r : AccessRequest) (u : User)
    (hr : getAccessRequestById d rid = some r)
    (hpending : r.status = "pending")
    (hu : getUserById d r.userId = some u) :
    ∃ d' r', processAccessRequestCtrl d rid "approved" reason callerId now =
        .ok (d', some r') ∧
      r'.status = "approved" ∧ r'.processedAt = some now ∧
      r'.processedBy = some callerId ∧
      getAccessRequestById d' rid = some r' ∧
      ∃ u', getUserById d' r.userId = some u' ∧
        u'.groups = u.groups ++ [r.groupId] ∧
        u'.groups.count r.groupId = u.groups.count r.groupId + 1 := by
  have hrid : (r.id == rid) = true := by
    have := List.find?_some hr
    simpa using this
  have huid : u.id = r.userId := by
    have := List.find?_some hu
    simpa using this
  have hnb : (r.status != "pending") = false := by simp [hpending]
  have hupd := dbUpdateAccessRequest_found d rid
    { status := some "approved", reason := some reason,
      processedBy := some (some callerId) } now r hr
  have hu1 : getUserById
      { d with accessRequests := (updateFirst (fun x => x.id == rid)
          (applyAccessRequestPatch
            { status := some "approved", reason := some reason,
              processedBy := some (some callerId) } now)
          d.accessRequests) } r.userId = some u := hu
  have hgrant := dbUpdateUser_found _ r.userId
    { groups := some (u.groups ++ [r.groupId]) } now u hu1
  refine ⟨(dbUpdateUser (dbUpdateAccessRequest d rid
      { status := some "approved", reason := some reason,
        processedBy := some (some callerId) } now).2 r.userId
      { groups := some (u.groups ++ [r.groupId]) } now).2,
    applyAccessRequestPatch
      { status := some "approved", reason := some reason,
        processedBy := some (some callerId) } now r,
    ?_, rfl, rfl, rfl, ?_,
    applyUserPatch { groups := some (u.groups ++ [r.groupId]) } now u, ?_, rfl, ?_⟩
  · unfold processAccessRequestCtrl
    rw [show ((!(("approved" : String) == "approved" || ("approved" : String) == "denied")) = false) from rfl]
    dsimp only
    rw [hr]
    dsimp only
    rw [if_neg (show ¬((r.status != "pending") = true) by simp [hpending])]
    rw [hupd]
    dsimp only
    rw [if_pos (show (("approved" : String) == "approved") = true from rfl)]
    rw [hu1]
    dsimp only
    rw [huid]
    rfl
  · rw [hupd]
    dsimp only
    rw [hgrant]
    show getAccessRequestById _ rid = _
    unfold getAccessRequestById
    dsimp only
    exact find?_updateFirst _ _ _ _ hr hrid
  · rw [hupd]
    dsimp only
    rw [hgrant]
    show getUserById _ r.userId = _
    unfold getUserById
    dsimp only
    refine find?_updateFirst _ _ _ _ hu1 ?_
    show (u.id == r.userId) = true
    simp [huid]
  · show (applyUserPatch { groups := some (u.groups ++ [r.groupId]) } now u).groups.count
        r.groupId = u.groups.count r.groupId + 1
    simp [applyUserPatch]

/-- Witness for the amended C3: approving the pending request of
`storeReqEx` (requester not yet a member) stamps the request and adds
"g1" to the requester's groups exactly once. -/
theorem approve_pending_request_witness :
    getAccessRequestById storeReqEx "r1" = some pendingReqEx ∧
    (∃ d' r', processAccessRequestCtrl storeReqEx "r1" "approved" none "adm" 9 =
        .ok (d', some r') ∧
      r'.status = "approved" ∧ r'.processedAt = some 9 ∧
      r'.processedBy = some "adm" ∧
      getAccessRequestById d' "r1" = some r' ∧
      ∃ u', getUserById d' pendingReqEx.userId = some u' ∧
        u'.groups = freshUserEx.groups ++ [pendingReqEx.groupId] ∧
        u'.groups.count pendingReqEx.groupId =
          freshUserEx.groups.count pendingReqEx.groupId + 1) :=
  ⟨by decide, approve_pending_request storeReqEx "r1" none "adm" 9 pendingReqEx
    freshUserEx (by decide) rfl (by decide)⟩

/-- Counterexample to C6 as stated: renaming group "Admins" (id "g1")
to its own case variant "admins" is reported as a Conflict, because
the controller skips the uniqueness check only on a (case-sensitive)
exact match with the current name and never passes the group's own id
as the exclusion, so the case-insensitive lookup finds the group
itself. -/
theorem rename_own_case_variant_conflicts_cex :
    updateGroupCtrl storeNameEx "g1" (some "admins") none 9 =
      .error (.conflict "Group name already exists") := by
  rfl

/-- C6 as amended: creating a group whose (sanitized) name collides
case-insensitively with an existing one is a Conflict and leaves the
store untouched; on update, the uniqueness check is skipped only when
the supplied name equals the current name exactly (case-sensitively),
and any differing name that collides case-insensitively with any
stored group — the group itself included — is a Conflict, since the
group's own id is not excluded from the lookup. -/
theorem group_name_uniqueness (d : DatabaseSchema) (gid : String) (g : Group)
    (name : String) (newId : String) (now : Nat) :
    ((name ≠ "" → validateGroupName (sanitizeInput name) = true →
      isGroupNameUnique d (sanitizeInput name) none = false →
      createGroupCtrl d name [] newId now =
        .error (.conflict "Group name already exists"))) ∧
    (getGroupById d gid = some g → sanitizeInput name = g.name →
      validateGroupName (sanitizeInput name) = true →
      ∃ res, updateGroupCtrl d gid (some name) none now = .ok res) ∧
    (getGroupById d gid = some g → sanitizeInput name ≠ g.name →
      validateGroupName (sanitizeInput name) = true →
      isGroupNameUnique d (sanitizeInput name) none = false →
      updateGroupCtrl d gid (some name) none now =
        .error (.conflict "Group name already exists")) := by
  refine ⟨?_, ?_, ?_⟩
  · intro hne hval huniq
    unfold createGroupCtrl
    rw [if_neg (show ¬((name == "") = true) by simp [hne])]
    rw [if_neg (show ¬((!validateGroupName (sanitizeInput name)) = true) by simp [hval])]
    rw [if_pos (show (!isGroupNameUnique d (sanitizeInput name) none) = true by simp [huniq])]
  · intro hg hsame hval
    unfold updateGroupCtrl
    rw [hg]
    dsimp only
    rw [if_neg (show ¬((!validateGroupName (sanitizeInput name)) = true) by simp [hval])]
    rw [if_neg (show ¬((sanitizeInput name != g.name &&
        !isGroupNameUnique d (sanitizeInput name) none) = true) by simp [hsame])]
    exact ⟨_, rfl⟩
  · intro hg hdiff hval huniq
    unfold updateGroupCtrl
    rw [hg]
    dsimp only
    rw [if_neg (show ¬((!validateGroupName (sanitizeInput name)) = true) by simp [hval])]
    rw [if_pos (show (sanitizeInput name != g.name &&
        !isGroupNameUnique d (sanitizeInput name) none) = true by simp [hdiff, huniq])]

/-- Witness for the amended C6: creating "ADMINS" beside "Admins"
conflicts; updating "g1" while re-supplying its exact current name
"Admins" succeeds. -/
theorem group_name_uniqueness_witness :
    (createGroupCtrl storeNameEx "ADMINS" [] "g9" 9 =
      .error (.conflict "Group name already exists")) ∧
    (∃ res, updateGroupCtrl storeNameEx "g1" (some "Admins") none 9 = .ok res) := by
  constructor
  · exact (group_name_uniqueness storeNameEx "g1" groupEx "ADMINS" "g9" 9).1
      (by decide) (by decide) (by decide)
  · exact (group_name_uniqueness storeNameEx "g1" groupEx "Admins" "g9" 9).2.1
      (by decide) (by decide) (by decide)

/-- `updateFirst` preserves length. -/
theorem updateFirst_length (p : α → Bool) (f : α → α) :
    ∀ l : List α, (updateFirst p f l).length = l.length := by
  intro l
  induction l with
  | nil => rfl
  | cons x xs ih =>
    unfold updateFirst
    split <;> simp [ih]

/-- Seeding the default groups does not change the number of users
(the admin user is patched in place, never added). -/
theorem createDefaultGroups_users_length (d : DatabaseSchema) (gA gU : String)
    (now : Nat) : (createDefaultGroups d gA gU now).users.length = d.users.length := by
  unfold createDefaultGroups
  dsimp only
  split <;> simp [updateFirst_length]

/-- Seeding the default groups does not touch the policies table. -/
theorem createDefaultGroups_policies (d : DatabaseSchema) (gA gU : String)
    (now : Nat) : (createDefaultGroups d gA gU now).policies = d.policies := by
  unfold createDefaultGroups
  dsimp only
  split <;> rfl

/-- Seeding the default groups appends exactly "Administrators" and
"Users" to the groups table. -/
theorem createDefaultGroups_names (d : DatabaseSchema) (gA gU : String)
    (now : Nat) : (createDefaultGroups d gA gU now).groups.map Group.name =
      d.groups.map Group.name ++ ["Administrators", "Users"] := by
  unfold createDefaultGroups
  dsimp only
  split <;> simp

/-- Counterexample to C9 as stated: `storeSeedEx` has a non-empty
users table but empty policies and groups tables; initialization still
seeds the two default policies and the two default groups — the gates
are per-table, a non-empty users table does not skip seeding entirely. -/
theorem seeding_not_skipped_cex :
    storeSeedEx.users.length = 1 ∧ storeSeedEx.policies = [] ∧ storeSeedEx.groups = [] ∧
    (initDatabase storeSeedEx "a1" "pA" "pU" "gA" "gU" 9 "h").policies.length = 2 ∧
    (initDatabase storeSeedEx "a1" "pA" "pU" "gA" "gU" 9 "h").groups.length = 2 := by
  refine ⟨rfl, rfl, rfl, rfl, rfl⟩

/-- C9 as amended: each seeding step is gated on its own table's
emptiness, in both directions — the default admin user (username
"admin", role admin) is added iff the users table is empty (a
non-empty users table keeps the user count unchanged); the two default
policies "Admin Policy" and "User Policy" are added iff the policies
table is empty (otherwise that table is unchanged); the two default
groups "Administrators" and "Users" are added iff the groups table is
empty (otherwise that table is unchanged). -/
theorem seeding_gated_per_table (d : DatabaseSchema) (a pA pU gA gU : String)
    (now : Nat) (h : String) :
    (d.users ≠ [] →
      (initDatabase d a pA pU gA gU now h).users.length = d.users.length) ∧
    (d.users = [] → ∃ u ∈ (initDatabase d a pA pU gA gU now h).users,
      u.username = "admin" ∧ u.role = "admin") ∧
    (d.policies ≠ [] →
      (initDatabase d a pA pU gA gU now h).policies = d.policies) ∧
    (d.policies = [] →
      (initDatabase d a pA pU gA gU now h).policies =
        [{ id := pA, name := "Admin Policy", permissions := adminPolicyPermissions,
           createdAt := now, updatedAt := now },
         { id := pU, name := "User Policy", permissions := userPolicyPermissions,
           createdAt := now, updatedAt := now }]) ∧
    (d.groups ≠ [] →
      (initDatabase d a pA pU gA gU now h).groups = d.groups) ∧
    (d.groups = [] →
      (initDatabase d a pA pU gA gU now h).groups.map Group.name =
        ["Administrators", "Users"]) := by
  refine ⟨?_, ?_, ?_, ?_, ?_, ?_⟩
  · intro hne
    unfold initDatabase
    dsimp only
    split <;> split <;> split <;>
      simp_all [createDefaultGroups_users_length, createDefaultGroups_policies,
        createDefaultPolicies, createDefaultAdmin, migrateUsers, List.length_eq_zero]
  · intro hU
    unfold initDatabase
    dsimp only
    split <;> split <;> split <;>
      simp_all [createDefaultGroups, createDefaultPolicies, createDefaultAdmin,
        migrateUsers, updateFirst, List.find?]
  · intro hne
    unfold initDatabase
    dsimp only
    split <;> split <;> split <;>
      simp_all [createDefaultGroups_users_length, createDefaultGroups_policies,
        createDefaultPolicies, createDefaultAdmin, migrateUsers, List.length_eq_zero]
  · intro hP
    unfold initDatabase
    dsimp only
    split <;> split <;> split <;>
      simp_all [createDefaultGroups_policies, createDefaultPolicies,
        createDefaultAdmin, migrateUsers]
  · intro hne
    unfold initDatabase
    dsimp only
    split <;> split <;> split <;>
      simp_all [createDefaultGroups_users_length, createDefaultGroups_policies,
        createDefaultPolicies, createDefaultAdmin, migrateUsers, List.length_eq_zero]
  · intro hG
    unfold initDatabase
    dsimp only
    split <;> split <;> split <;>
      simp_all [createDefaultGroups_names, createDefaultPolicies,
        createDefaultAdmin, migrateUsers]

/-- Witness for the amended C9: on `storeEx` (all tables non-empty)
initialization changes no table, and on the empty store it seeds the
admin user, the two default policies and the two default groups. -/
theorem seeding_gated_per_table_witness :
    (initDatabase storeEx "a1" "pA" "pU" "gA" "gU" 9 "h").users.length =
      storeEx.users.length ∧
    (initDatabase storeEx "a1" "pA" "pU" "gA" "gU" 9 "h").policies =
      storeEx.policies ∧
    (initDatabase storeEx "a1" "pA" "pU" "gA" "gU" 9 "h").groups = storeEx.groups ∧
    (∃ u ∈ (initDatabase storeEmptyEx "a1" "pA" "pU" "gA" "gU" 9 "h").users,
      u.username = "admin" ∧ u.role = "admin") ∧
    (initDatabase storeEmptyEx "a1" "pA" "pU" "gA" "gU" 9 "h").policies =
      [{ id := "pA", name := "Admin Policy", permissions := adminPolicyPermissions,
         createdAt := 9, updatedAt := 9 },
       { id := "pU", name := "User Policy", permissions := userPolicyPermissions,
         createdAt := 9, updatedAt := 9 }] ∧
    (initDatabase storeEmptyEx "a1" "pA" "pU" "gA" "gU" 9 "h").groups.map Group.name =
      ["Administrators", "Users"] := by
  obtain ⟨h1, h2, h3, h4, h5, h6⟩ :=
    seeding_gated_per_table storeEx "a1" "pA" "pU" "gA" "gU" 9 "h"
  obtain ⟨g1, g2, g3, g4, g5, g6⟩ :=
    seeding_gated_per_table storeEmptyEx "a1" "pA" "pU" "gA" "gU" 9 "h"
  exact ⟨h1 (by decide), h3 (by decide), h5 (by decide), g2 rfl, g4 rfl, g6 rfl⟩

/-- `updateFirst` across an unmatched prefix rewrites exactly the
head of the matching suffix. -/
theorem updateFirst_append (p : α → Bool) (f : α → α) (l₁ : List α) (u : α)
    (l₂ : List α) (h₁ : ∀ v ∈ l₁, p v = false) (hu : p u = true) :
    updateFirst p f (l₁ ++ u :: l₂) = l₁ ++ f u :: l₂ := by
  induction l₁ with
  | nil => simp [updateFirst, hu]
  | cons x xs ih =>
    have hx : p x = false := h₁ x (by simp)
    simp only [List.cons_append, updateFirst, hx, Bool.false_eq_true, if_false,
      List.append_eq]
    rw [ih (fun v hv => h₁ v (by simp [hv]))]

/-- Per-record cascade fold: iterating over a key-distinct list and
rewriting, for each dirty record, the first record of the accumulator
with the same key, is the pointwise clean-up map. `fix u v` is the
replacement written for snapshot `u` at store record `v`; it must
preserve the key. -/
theorem cascade_foldl (key : α → String) (dirty : α → Bool) (fix : α → α → α)
    (hkey : ∀ u v, key (fix u v) = key v) :
    ∀ (iter pre : List α), (((pre ++ iter).map key).Nodup) →
      iter.foldl (fun acc u =>
          if dirty u then updateFirst (fun v => key v == key u) (fix u) acc else acc)
        (pre.map (fun u => if dirty u then fix u u else u) ++ iter)
      = (pre ++ iter).map (fun u => if dirty u then fix u u else u) := by
  intro iter
  induction iter with
  | nil => intro pre hnd; simp
  | cons u iter' ih =>
    intro pre hnd
    rw [List.foldl_cons]
    by_cases hd : dirty u = true
    · have hpre : ∀ v ∈ pre.map (fun w => if dirty w then fix w w else w),
          (key v == key u) = false := by
        intro v hv
        obtain ⟨w, hw, rfl⟩ := List.mem_map.mp hv
        have hkw : key (if dirty w then fix w w else w) = key w := by
          by_cases hdw : dirty w = true
          · simp [hdw, hkey]
          · simp [hdw]
        have hne : key w ≠ key u := by
          intro hEq
          rw [List.map_append] at hnd
          exact (List.disjoint_of_nodup_append hnd)
            (List.mem_map_of_mem key hw) (by simp [hEq])
        simp [hkw, hne]
      rw [if_pos hd, updateFirst_append _ _ _ _ _ hpre (by simp)]
      have hshift : pre.map (fun w => if dirty w then fix w w else w) ++ fix u u :: iter'
          = (pre ++ [u]).map (fun w => if dirty w then fix w w else w) ++ iter' := by
        simp [hd]
      rw [hshift, ih (pre ++ [u]) (by simpa using hnd)]
      simp
    · rw [if_neg hd]
      have hshift : pre.map (fun w => if dirty w then fix w w else w) ++ u :: iter'
          = (pre ++ [u]).map (fun w => if dirty w then fix w w else w) ++ iter' := by
        simp [hd]
      rw [hshift, ih (pre ++ [u]) (by simpa using hnd)]
      simp

/-- The store returned by `updateUser`, characterised without the
lookup: the users table goes through `updateFirst`, the other tables
are untouched. -/
theorem dbUpdateUser_snd (d : DatabaseSchema) (id : String) (p : UserPatch)
    (now : Nat) :
    (dbUpdateUser d id p now).2 =
      { d with users := (updateFirst (fun v => v.id == id) (applyUserPatch p now) d.users) } := by
  unfold dbUpdateUser
  cases h : d.users.find? (fun u => u.id == id) with
  | none =>
    dsimp only
    rw [updateFirst_of_find?_eq_none _ _ _ h]
  | some u => rfl

/-- The store returned by `updateGroup`, characterised without the
lookup. -/
theorem dbUpdateGroup_snd (d : DatabaseSchema) (id : String) (p : GroupPatch)
    (now : Nat) :
    (dbUpdateGroup d id p now).2 =
      { d with groups := (updateFirst (fun x => x.id == id) (applyGroupPatch p now) d.groups) } := by
  unfold dbUpdateGroup
  cases h : d.groups.find? (fun g => g.id == id) with
  | none =>
    dsimp only
    rw [updateFirst_of_find?_eq_none _ _ _ h]
  | some g => rfl

/-- The per-user clean-up loop of `deleteGroup` only rewrites the
users table; projected to it, it is the fold of the corresponding
list-level steps. -/
theorem deleteGroup_fold_proj (gid : String) (now : Nat) :
    ∀ (iter : List User) (acc : DatabaseSchema),
      (iter.foldl (fun acc user =>
        if user.groups.contains gid then
          (dbUpdateUser acc user.id
            { groups := some (user.groups.filter (fun groupId => groupId != gid)) } now).2
        else acc) acc)
      = { acc with users := (iter.foldl (fun us user =>
          if user.groups.contains gid then
            updateFirst (fun v => v.id == user.id)
              (applyUserPatch
                { groups := some (user.groups.filter (fun groupId => groupId != gid)) } now) us
          else us) acc.users) } := by
  intro iter
  induction iter with
  | nil => intro acc; rfl
  | cons u it ih =>
    intro acc
    rw [List.foldl_cons, List.foldl_cons]
    by_cases hd : (u.groups.contains gid) = true
    · rw [if_pos hd, if_pos hd, dbUpdateUser_snd, ih]
    · rw [if_neg hd, if_neg hd, ih]

/-- The per-group clean-up loop of the modelled `deletePolicy` only
rewrites the groups table. -/
theorem deletePolicy_fold_proj (pid : String) (now : Nat) :
    ∀ (iter : List Group) (acc : DatabaseSchema),
      (iter.foldl (fun acc group =>
        if group.policies.contains pid then
          (dbUpdateGroup acc group.id
            { policies := some (group.policies.filter (fun policyId => policyId != pid)) } now).2
        else acc) acc)
      = { acc with groups := (iter.foldl (fun gs group =>
          if group.policies.contains pid then
            updateFirst (fun x => x.id == group.id)
              (applyGroupPatch
                { policies := some (group.policies.filter (fun policyId => policyId != pid)) } now) gs
          else gs) acc.groups) } := by
  intro iter
  induction iter with
  | nil => intro acc; rfl
  | cons g it ih =>
    intro acc
    rw [List.foldl_cons, List.foldl_cons]
    by_cases hd : (g.policies.contains pid) = true
    · rw [if_pos hd, if_pos hd, dbUpdateGroup_snd, ih]
    · rw [if_neg hd, if_neg hd, ih]

/-- C4: with distinct user ids, a successful `deleteGroup` removes the
group's id from every user's `groups` (each affected user is rewritten
to its filtered groups, others are untouched), removes exactly the
deleted group from the groups table, and leaves the policies and
access-requests tables — and every other cross-reference — unchanged. -/
theorem delete_group_cascades (d : DatabaseSchema) (gid : String) (now : Nat)
    (d' : DatabaseSchema)
    (hnd : (d.users.map User.id).Nodup)
    (h : deleteGroupCtrl d gid now = some d') :
    d'.users = d.users.map (fun u => if u.groups.contains gid then
        { u with groups := (u.groups.filter (fun groupId => groupId != gid)),
                 updatedAt := now }
      else u) ∧
    (∀ u ∈ d'.users, gid ∉ u.groups) ∧
    d'.groups = d.groups.eraseP (fun g => g.id == gid) ∧
    d'.policies = d.policies ∧
    d'.accessRequests = d.accessRequests := by
  unfold deleteGroupCtrl at h
  by_cases hdel : (dbDeleteGroup d gid).1 = true
  case neg => rw [if_neg hdel] at h; cases h
  case pos =>
  rw [if_pos hdel] at h
  injection h with h
  subst h
  have hc := cascade_foldl User.id (fun u => u.groups.contains gid)
    (fun u v => applyUserPatch
      { groups := some (u.groups.filter (fun groupId => groupId != gid)) } now v)
    (fun u v => rfl) d.users [] (by simpa using hnd)
  simp only [List.map_nil, List.nil_append] at hc
  have husers : ((dbDeleteGroup d gid).2.users.foldl (fun acc user =>
      if user.groups.contains gid then
        (dbUpdateUser acc user.id
          { groups := some (user.groups.filter (fun groupId => groupId != gid)) } now).2
      else acc) (dbDeleteGroup d gid).2).users
      = d.users.map (fun u => if u.groups.contains gid then
          { u with groups := (u.groups.filter (fun groupId => groupId != gid)),
                   updatedAt := now }
        else u) := by
    rw [deleteGroup_fold_proj]
    dsimp only [dbDeleteGroup]
    exact hc
  refine ⟨husers, ?_, ?_, ?_, ?_⟩
  · intro u hu
    rw [husers] at hu
    obtain ⟨w, hw, rfl⟩ := List.mem_map.mp hu
    by_cases hdw : (w.groups.contains gid) = true
    · rw [if_pos hdw]
      simp [List.mem_filter]
    · rw [if_neg hdw]
      have hdw' : w.groups.contains gid = false := by simpa using hdw
      simpa using hdw'
  · rw [deleteGroup_fold_proj]
    rfl
  · rw [deleteGroup_fold_proj]
    rfl
  · rw [deleteGroup_fold_proj]
    rfl

/-- Witness for C4: deleting "g1" from `storeCascEx` yields
`storeCascResult`, in which no user references "g1". -/
theorem delete_group_cascades_witness :
    deleteGroupCtrl storeCascEx "g1" 7 = some storeCascResult ∧
    (∀ u ∈ storeCascResult.users, "g1" ∉ u.groups) :=
  ⟨by decide, (delete_group_cascades storeCascEx "g1" 7 storeCascResult
    (by decide) (by decide)).2.1⟩

/-- C5: with distinct group ids, a successful
`PolicyController.deletePolicy` removes the policy's id from every
group's `policies`, removes exactly the deleted policy from the
policies table, and leaves the users and access-requests tables
unchanged. -/
theorem delete_policy_cascades (d : DatabaseSchema) (pid : String) (now : Nat)
    (d' : DatabaseSchema)
    (hnd : (d.groups.map Group.id).Nodup)
    (h : deletePolicyCtrl d pid now = some d') :
    d'.groups = d.groups.map (fun g => if g.policies.contains pid then
        { g with policies := (g.policies.filter (fun policyId => policyId != pid)),
                 updatedAt := now }
      else g) ∧
    (∀ g ∈ d'.groups, pid ∉ g.policies) ∧
    d'.policies = d.policies.eraseP (fun p => p.id == pid) ∧
    d'.users = d.users ∧
    d'.accessRequests = d.accessRequests := by
  unfold deletePolicyCtrl at h
  by_cases hdel : (dbDeletePolicy d pid).1 = true
  case neg => rw [if_neg hdel] at h; cases h
  case pos =>
  rw [if_pos hdel] at h
  injection h with h
  subst h
  have hc := cascade_foldl Group.id (fun g => g.policies.contains pid)
    (fun g v => applyGroupPatch
      { policies := some (g.policies.filter (fun policyId => policyId != pid)) } now v)
    (fun g v => rfl) d.groups [] (by simpa using hnd)
  simp only [List.map_nil, List.nil_append] at hc
  have hgroups : ((dbDeletePolicy d pid).2.groups.foldl (fun acc group =>
      if group.policies.contains pid then
        (dbUpdateGroup acc group.id
          { policies := some (group.policies.filter (fun policyId => policyId != pid)) } now).2
      else acc) (dbDeletePolicy d pid).2).groups
      = d.groups.map (fun g => if g.policies.contains pid then
          { g with policies := (g.policies.filter (fun policyId => policyId != pid)),
                   updatedAt := now }
        else g) := by
    rw [deletePolicy_fold_proj]
    dsimp only [dbDeletePolicy]
    exact hc
  refine ⟨hgroups, ?_, ?_, ?_, ?_⟩
  · intro g hg
    rw [hgroups] at hg
    obtain ⟨w, hw, rfl⟩ := List.mem_map.mp hg
    by_cases hdw : (w.policies.contains pid) = true
    · rw [if_pos hdw]
      simp [List.mem_filter]
    · rw [if_neg hdw]
      have hdw' : w.policies.contains pid = false := by simpa using hdw
      simpa using hdw'
  · rw [deletePolicy_fold_proj]
    rfl
  · rw [deletePolicy_fold_proj]
    rfl
  · rw [deletePolicy_fold_proj]
    rfl

/-- Witness for C5: deleting "p1" from `storePolCascEx` yields
`storePolCascResult`, in which no group references "p1". -/
theorem delete_policy_cascades_witness :
    deletePolicyCtrl storePolCascEx "p1" 7 = some storePolCascResult ∧
    (∀ g ∈ storePolCascResult.groups, "p1" ∉ g.policies) :=
  ⟨by decide, (delete_policy_cascades storePolCascEx "p1" 7 storePolCascResult
    (by decide) (by decide)).2.1⟩

end UAM
